import Mathlib

/-!
Verification development for the Dog (marble-race) rules engine of this
repository. The engine module `server/py/dog.py` is imported by
`server/py/main.py` and exercised by `src/test/test_dog.py`, but the module
itself is not present in the source tree; the definitions below are therefore
modelled from the specification (spec.md), keeping the source field and
function names used by the tests.
-/

set_option maxRecDepth 4000

namespace Dog

/-- Modelled from the spec: immutable card value `{suit, rank}` (spec section 3). -/
structure Card where
  suit : String
  rank : String
deriving DecidableEq, Repr

/-- Modelled from the spec: marble `{position, is_safe}`; the tests use the
field names `pos` and `is_save` (spec section 3). -/
structure Marble where
  pos : Int
  is_save : Bool
deriving DecidableEq, Repr

/-- Modelled from the spec: player `{hand, marbles}`; the tests use the field
names `list_card` and `list_marble` (spec section 3). -/
structure Player where
  list_card : List Card
  list_marble : List Marble
deriving DecidableEq, Repr

/-- Modelled from the spec: game phase enum (spec section 3). -/
inductive GamePhase where
  | RUNNING
  | FINISHED
deriving DecidableEq, Repr

/-- Modelled from the spec: action record `{card, pos_from, pos_to, card_swap}`
(spec section 3). -/
structure Action where
  card : Card
  pos_from : Option Int
  pos_to : Option Int
  card_swap : Option Card := none
deriving DecidableEq, Repr

/-- Modelled from the spec: the single-source-of-truth game state
(spec section 3), with the field names the tests use. The exchange log
`exchanges_done` lives on the `Dog` object in the missing module; it is kept
here as an extra state field so that state passing stays single-valued. -/
structure GameState where
  cnt_player : Nat
  phase : GamePhase
  cnt_round : Nat
  bool_card_exchanged : Bool
  idx_player_started : Nat
  idx_player_active : Nat
  list_player : Fin 4 → Player
  list_card_draw : List Card
  list_card_discard : List Card
  card_active : Option Card
  steps_remaining_for_7 : Option Nat
  exchanges_done : List (Nat × Card)

/-- Modelled from the spec: suits of a standard deck (spec section 3). -/
def LIST_SUIT : List String := ["♠", "♥", "♦", "♣"]

/-- Modelled from the spec: ranks `{2..10, J, Q, K, A}` (spec section 3). -/
def LIST_RANK : List String :=
  ["2", "3", "4", "5", "6", "7", "8", "9", "10", "J", "Q", "K", "A"]

/-- Modelled from the spec: one standard 52-card deck. -/
def oneDeck : List Card :=
  LIST_SUIT.flatMap (fun s => LIST_RANK.map (fun r => { suit := s, rank := r }))

/-- Modelled from the spec: the fixed card catalog `GameState.LIST_CARD` —
two standard decks plus six jokers (spec section 2.2); the tests compare the
draw pile against `len(GameState.LIST_CARD)`. -/
def LIST_CARD : List Card :=
  oneDeck ++ oneDeck ++ List.replicate 6 { suit := "", rank := "JKR" }

/-- Modelled from the spec: board topology constants. Positions `0..63` are
the shared circular track; positions `64..` are the per-player kennel and
finish slots, eight per player (spec sections 3 and 4.1). Entry point onto
the track for player `i`. -/
def START_POSITION (i : Nat) : Int := 16 * (i : Int)

/-- Modelled from the spec: the four kennel slots of player `i`
(spec section 4.1); the tests index this as `KENNEL_POSITIONS[i][0]`. -/
def KENNEL_POSITIONS (i : Nat) : List Int :=
  [64 + 8 * (i : Int), 65 + 8 * (i : Int), 66 + 8 * (i : Int), 67 + 8 * (i : Int)]

/-- Modelled from the spec: the four finish-lane slots of player `i`, beyond
the kennel slots (spec section 4.1). -/
def FINISH_POSITIONS (i : Nat) : List Int :=
  [68 + 8 * (i : Int), 69 + 8 * (i : Int), 70 + 8 * (i : Int), 71 + 8 * (i : Int)]

/-- Modelled from the spec: the largest valid board-position encoding —
64 track slots plus 4 players times 8 kennel/finish slots (spec section 4.1). -/
def MAX_POS : Int := 64 + 4 * 8 - 1

/-- Reduce a player index given as a plain natural to a board player slot. -/
def pIdx (n : Nat) : Fin 4 := ⟨n % 4, Nat.mod_lt n (by norm_num)⟩

/-- Point update of the player table. -/
def updatePlayer (f : Fin 4 → Player) (j : Fin 4) (p : Player) : Fin 4 → Player :=
  fun k => if k = j then p else f k

/-- Modelled from the spec: `active_player_index` is derived deterministically
from `(started_player_index + round_count) mod cnt_player` whenever state is
read or set (spec section 3). -/
def derive_idx_player_active (s : GameState) : GameState :=
  { s with idx_player_active := (s.idx_player_started + s.cnt_round) % s.cnt_player }

/-- Modelled from the spec: `get_state` reapplies the active-player rotation on
every call and returns the state (spec sections 3 and 6). -/
def get_state (s : GameState) : GameState := derive_idx_player_active s

/-- Modelled from the spec: `set_state` stores the given state, triggering the
same active-player re-derivation (spec sections 3 and 6). -/
def set_state (s : GameState) : GameState := derive_idx_player_active s

/-- Modelled from the spec: whether an opposing safe marble occupies `pos`
(spec section 4.4, `check_move_validity`). -/
def opposing_safe_at (s : GameState) (player_idx : Nat) (pos : Int) : Bool :=
  (List.finRange 4).any (fun j =>
    j.val != player_idx
      && (s.list_player j).list_marble.any (fun m => m.pos == pos && m.is_save))

/-- Modelled from the spec: `check_move_validity(player_idx, marble_idx,
new_pos)` fails closed — false for `new_pos < 0`, for `new_pos` beyond the
maximum valid encoding, or when an opposing safe marble already occupies
`new_pos`; true otherwise (spec section 4.4). -/
def check_move_validity (s : GameState) (player_idx marble_idx : Nat)
    (new_pos : Int) : Bool :=
  if new_pos < 0 then false
  else if MAX_POS < new_pos then false
  else if opposing_safe_at s player_idx new_pos then false
  else true

/-- Modelled from the spec: the step count consumed by a displacement, once
both endpoints are known — wraparound arithmetic on the 64-slot track, and the
plain position delta when the move touches kennel/finish coordinates
(spec section 4.3, `calculate_7_steps`). -/
def calc_7_steps_core (pos_from pos_to : Int) : Int :=
  if pos_from < 64 && pos_to < 64 then (pos_to - pos_from) % 64
  else pos_to - pos_from

/-- Modelled from the spec: `calculate_7_steps(pos_from, pos_to)` computes how
many of the 7 steps a displacement consumes and raises an input-validation
error if either position is missing (spec section 4.3). -/
def calculate_7_steps : Option Int → Option Int → Except String Int
  | some pf, some pt => .ok (calc_7_steps_core pf pt)
  | _, _ => .error "ValueError: pos_from and pos_to must not be None"

/-- All marbles of player `i` start on that player's kennel slots. -/
def initial_marbles (i : Nat) : List Marble :=
  (KENNEL_POSITIONS i).map (fun p => { pos := p, is_save := false })

/-- A player with an empty hand and all marbles in the kennel. -/
def initial_player (i : Nat) : Player :=
  { list_card := [], list_marble := initial_marbles i }

/-- A concrete running state with every marble in its kennel and all cards in
the draw pile; used to instantiate general theorems. -/
def sample_state : GameState :=
  { cnt_player := 4
    phase := .RUNNING
    cnt_round := 1
    bool_card_exchanged := false
    idx_player_started := 0
    idx_player_active := 0
    list_player := fun j => initial_player j.val
    list_card_draw := LIST_CARD
    list_card_discard := []
    card_active := none
    steps_remaining_for_7 := none
    exchanges_done := [] }

/-- Next player index, mod 4 (spec section 4.4). -/
def advance (i : Nat) : Nat := (i + 1) % 4

/-- Remove the first occurrence of a card from a hand. -/
def removeFirst (c : Card) : List Card → List Card
  | [] => []
  | x :: xs => if x = c then xs else x :: removeFirst c xs

/-- Modelled from the spec: `send_home_if_passed(pos, active_player_idx)` —
any unsafe marble of another player standing at `pos` is reset to its owner's
first kennel slot with its safety flag cleared (spec sections 4.4 and 8). -/
def send_home_if_passed (s : GameState) (pos : Int) (active_player_idx : Nat) :
    GameState :=
  { s with list_player := fun j =>
      if j.val = active_player_idx then s.list_player j
      else
        { s.list_player j with
          list_marble := (s.list_player j).list_marble.map (fun m =>
            if m.pos == pos && !m.is_save then
              { pos := (KENNEL_POSITIONS j.val).headD 0, is_save := false }
            else m) } }

/-- Modelled from the spec: the positions strictly after `pos_from` up to and
including `pos_to` along the movement path — wrapped on the shared track, and
just the destination when the move touches kennel/finish coordinates
(spec section 4.4, step 3). -/
def pathPositions (pos_from pos_to : Int) : List Int :=
  if pos_from < 64 && pos_to < 64 then
    (List.range ((pos_to - pos_from) % 64).toNat).map
      (fun k => (pos_from + (k : Int) + 1) % 64)
  else [pos_to]

/-- Capture sweep along a movement path (spec section 4.4, step 3). -/
def captureAlongPath (s : GameState) (pos_from pos_to : Int)
    (active_player_idx : Nat) : GameState :=
  (pathPositions pos_from pos_to).foldl
    (fun st p => send_home_if_passed st p active_player_idx) s

/-- Move the first marble standing at `pos_from` to `pos_to`; the marble is
safe exactly when the destination is the player's own start position
(spec section 4.4, step 3). -/
def moveMarble (start pos_from pos_to : Int) : List Marble → List Marble
  | [] => []
  | m :: rest =>
    if m.pos = pos_from then
      { pos := pos_to, is_save := decide (pos_to = start) } :: rest
    else m :: moveMarble start pos_from pos_to rest

/-- Whether every marble of player `j` stands on one of its finish slots. -/
def all_in_finish (s : GameState) (j : Fin 4) : Bool :=
  (s.list_player j).list_marble.all (fun m =>
    (FINISH_POSITIONS j.val).contains m.pos)

/-- Modelled from the spec: after any marble movement the win condition is
checked; when all four marbles of some player occupy that player's finish
range the phase becomes FINISHED (spec section 4.4, step 5). -/
def check_win (s : GameState) : GameState :=
  if (List.finRange 4).any (fun j => all_in_finish s j) then
    { s with phase := .FINISHED }
  else s

/-- Whether every player's hand is empty. -/
def allHandsEmpty (s : GameState) : Bool :=
  (List.finRange 4).all (fun j => (s.list_player j).list_card.isEmpty)

/-- Modelled from the spec: clearing every hand before a deal; the cleared
cards join the discard pile so that no card is created or lost
(spec sections 4.5 and 8). -/
def clearHandsToDiscard (s : GameState) : GameState :=
  { s with
    list_card_discard := s.list_card_discard
      ++ (s.list_player 0).list_card ++ (s.list_player 1).list_card
      ++ (s.list_player 2).list_card ++ (s.list_player 3).list_card
    list_player := fun j => { s.list_player j with list_card := [] } }

/-- Modelled from the spec: when the draw pile holds fewer than `4 * n` cards,
the discard pile is reshuffled back into the draw pile, leaving the discard
pile empty (spec section 4.5). The shuffling order is irrelevant to every
property below, so the reshuffle is modelled as concatenation. -/
def reshuffleIfNeeded (s : GameState) (n : Nat) : GameState :=
  if s.list_card_draw.length < 4 * n then
    { s with
      list_card_draw := s.list_card_draw ++ s.list_card_discard
      list_card_discard := [] }
  else s

/-- Deal `n` cards from the draw pile to each of the 4 players in turn
(spec section 4.5). -/
def dealToPlayers (s : GameState) (n : Nat) : GameState :=
  { s with
    list_player := fun j =>
      { s.list_player j with
        list_card := (s.list_card_draw.drop (j.val * n)).take n }
    list_card_draw := s.list_card_draw.drop (4 * n) }

/-- Modelled from the spec: `deal_cards(n)` clears every hand, reshuffles the
discard pile into the draw pile when fewer than `4 * n` cards remain, and
deals `n` cards to each of the 4 players (spec section 4.5). -/
def deal_cards (s : GameState) (n : Nat) : GameState :=
  dealToPlayers (reshuffleIfNeeded (clearHandsToDiscard s) n) n

/-- Modelled from the spec: `start_new_round()` increments the round count,
rotates the starting player, sets the active player to the starting player,
resets the exchange flag, the active card and the 7-step budget, sets the
phase to RUNNING, and deals `7 - ((cnt_round - 1) mod 5 + 1)` cards to every
player (spec section 4.5). -/
def start_new_round (s : GameState) : GameState :=
  let r := s.cnt_round + 1
  let n := 7 - ((r - 1) % 5 + 1)
  let started := (s.idx_player_started + 1) % 4
  deal_cards
    { s with
      cnt_round := r
      idx_player_started := started
      idx_player_active := started
      bool_card_exchanged := false
      card_active := none
      steps_remaining_for_7 := none
      phase := .RUNNING } n

/-- Total number of cards held in the four hands. -/
def handCountF (f : Fin 4 → Player) : Nat :=
  (f 0).list_card.length + (f 1).list_card.length
    + (f 2).list_card.length + (f 3).list_card.length

/-- Total number of cards in the state: draw pile, discard pile and hands.
A card mid-resolution (`card_active`) stays in its owner's hand until the
action completes, so it is counted there. -/
def totalCards (s : GameState) : Nat :=
  s.list_card_draw.length + s.list_card_discard.length
    + handCountF s.list_player

/-- The pure part of completing a card play: the played card moves from the
active player's hand to the discard pile, the active card and the 7-step
budget are cleared and the turn advances (spec section 4.4, step 4). -/
def discardCardStep (s : GameState) (c : Card) : GameState :=
  let j := pIdx s.idx_player_active
  let p := s.list_player j
  { s with
    list_player := updatePlayer s.list_player j
      { p with list_card := removeFirst c p.list_card }
    list_card_discard := s.list_card_discard ++ [c]
    card_active := none
    steps_remaining_for_7 := none
    idx_player_active := advance s.idx_player_active }

/-- Modelled from the spec: completion of a card play — the played card is
discarded, the turn advances, and a new round starts when every hand is now
empty (spec section 4.4, step 4). -/
def finishCardTurn (s : GameState) (c : Card) : Except String GameState :=
  if c ∈ (s.list_player (pIdx s.idx_player_active)).list_card then
    if allHandsEmpty (discardCardStep s c) then
      .ok (start_new_round (discardCardStep s c))
    else .ok (discardCardStep s c)
  else .error "InvalidAction: card not in hand"

/-- The pure part of a marble movement: capture along the path, move the
marble standing at `pos_from` to `pos_to`, and check the win condition
(spec section 4.4, steps 3 and 5). -/
def moveMarbleStep (s : GameState) (player_idx : Nat) (pf pt : Int) : GameState :=
  let s1 := captureAlongPath s pf pt player_idx
  let j := pIdx player_idx
  let q := s1.list_player j
  check_win
    { s1 with
      list_player := updatePlayer s1.list_player j
        { q with
          list_marble := moveMarble (START_POSITION player_idx) pf pt q.list_marble } }

/-- Modelled from the spec: `_handle_seven_action` — the consumed step count
is computed via `calculate_7_steps`; a `ValueError` is raised when the
consumed steps do not fit into the remaining 7-budget; otherwise the marble
moves (capturing along the path), the budget is decremented by exactly the
consumed steps, and the turn only advances once the budget is exhausted
(spec sections 4.3 and 4.4). -/
def handle_seven_action (s : GameState) (a : Action) (player_idx : Nat) :
    Except String GameState :=
  match a.pos_from, a.pos_to with
  | some pf, some pt =>
    if calc_7_steps_core pf pt ≤ 0
        || s.steps_remaining_for_7.getD 7 < (calc_7_steps_core pf pt).toNat then
      .error "Invalid number of steps for this 7-move action."
    else if s.steps_remaining_for_7.getD 7 - (calc_7_steps_core pf pt).toNat
        = 0 then
      finishCardTurn (moveMarbleStep s player_idx pf pt) a.card
    else
      .ok { moveMarbleStep s player_idx pf pt with
        steps_remaining_for_7 :=
          some (s.steps_remaining_for_7.getD 7 - (calc_7_steps_core pf pt).toNat)
        card_active := some a.card }
  | _, _ => .error "ValueError: pos_from and pos_to must not be None"

/-- The step count a rank-7 partial action consumes, read off
`calculate_7_steps` (0 when the action is malformed). -/
def consumedSteps (a : Action) : Nat :=
  match calculate_7_steps a.pos_from a.pos_to with
  | .ok d => d.toNat
  | .error _ => 0

/-- One complete rank-7 turn: a sequence of partial actions, each applied by
`handle_seven_action`, that stay mid-resolution until the last one exhausts
the budget (clearing `steps_remaining_for_7`) and ends the turn. -/
inductive SevenTurn (p : Nat) : GameState → List Action → GameState → Prop where
  | last {s a s1} : handle_seven_action s a p = .ok s1 →
      s1.steps_remaining_for_7 = none → SevenTurn p s [a] s1
  | cons {s a s1 acts s2} : handle_seven_action s a p = .ok s1 →
      s1.steps_remaining_for_7 ≠ none → SevenTurn p s1 acts s2 →
      SevenTurn p s (a :: acts) s2

/-- Modelled from the spec: forfeit — `apply_action(None)` moves the active
player's whole hand to the discard pile, clears the hand and advances the
turn (spec section 4.4). -/
def apply_none_step (s : GameState) : GameState :=
  let j := pIdx s.idx_player_active
  let p := s.list_player j
  { s with
    list_player := updatePlayer s.list_player j { p with list_card := [] }
    list_card_discard := s.list_card_discard ++ p.list_card
    idx_player_active := advance s.idx_player_active }

/-- Modelled from the spec: `_handle_card_swap` — the exchange action moves
the named card from the active player's hand to the partner two seats away,
records the exchange, advances the turn, and flags the exchange phase done
after all four exchanges (spec section 4.4, step 1). -/
def handle_card_swap (s : GameState) (a : Action) : Except String GameState :=
  if a.card ∈ (s.list_player (pIdx s.idx_player_active)).list_card then
    .ok { s with
      list_player :=
        updatePlayer
          (updatePlayer s.list_player (pIdx s.idx_player_active)
            { s.list_player (pIdx s.idx_player_active) with
              list_card :=
                removeFirst a.card
                  (s.list_player (pIdx s.idx_player_active)).list_card })
          (pIdx (s.idx_player_active + 2))
          { s.list_player (pIdx (s.idx_player_active + 2)) with
            list_card :=
              (s.list_player (pIdx (s.idx_player_active + 2))).list_card
                ++ [a.card] }
      exchanges_done := s.exchanges_done ++ [(s.idx_player_active, a.card)]
      bool_card_exchanged := s.bool_card_exchanged
        || decide ((s.exchanges_done ++ [(s.idx_player_active, a.card)]).length = 4)
      idx_player_active := advance s.idx_player_active }
  else .error "InvalidAction: card not in hand"

/-- Modelled from the spec: a Jack swap exchanges the positions of the two
marbles standing at `pos_from` and `pos_to`; safety flags stay with the
marbles (spec section 4.4, step 2). -/
def apply_swap_action (s : GameState) (a : Action) : Except String GameState :=
  match a.pos_from, a.pos_to with
  | some pf, some pt =>
    finishCardTurn
      { s with list_player := fun j =>
          { s.list_player j with
            list_marble := (s.list_player j).list_marble.map (fun m =>
              if m.pos = pf then { m with pos := pt }
              else if m.pos = pt then { m with pos := pf }
              else m) } }
      a.card
  | _, _ => .error "ValueError: swap action requires positions"

/-- Modelled from the spec: a plain movement — validated via
`check_move_validity`, capturing along the path, moving the marble, checking
the win condition and completing the card play (spec section 4.4, step 3). -/
def apply_move_action (s : GameState) (a : Action) : Except String GameState :=
  match a.pos_from, a.pos_to with
  | some pf, some pt =>
    if a.card ∈ (s.list_player (pIdx s.idx_player_active)).list_card
        ∧ check_move_validity s s.idx_player_active 0 pt = true then
      finishCardTurn (moveMarbleStep s s.idx_player_active pf pt) a.card
    else .error "InvalidAction: move not legal"
  | _, _ => .error "ValueError: movement action requires positions"

/-- Modelled from the spec: `apply_action` dispatch — forfeit on `None`, card
exchange when both positions are missing, marble swap for a Jack, the 7-card
budget machinery for rank 7, and a plain movement otherwise
(spec section 4.4). -/
def apply_action (s : GameState) : Option Action → Except String GameState
  | none =>
    if allHandsEmpty (apply_none_step s) then
      .ok (start_new_round (apply_none_step s))
    else .ok (apply_none_step s)
  | some a =>
    if a.pos_from = none ∧ a.pos_to = none then handle_card_swap s a
    else if a.card.rank = "J" then apply_swap_action s a
    else if a.card.rank = "7" then handle_seven_action s a s.idx_player_active
    else apply_move_action s a

/-- Modelled from the spec: one card of the submitted selection moves from the
player's hand to the partner two seats away (spec section 6,
`exchange_cards`). -/
def exchange_one (s : GameState) (player_idx card_idx : Nat) :
    Except String GameState :=
  if h : card_idx < (s.list_player (pIdx player_idx)).list_card.length then
    .ok { s with
      list_player :=
        updatePlayer
          (updatePlayer s.list_player (pIdx player_idx)
            { s.list_player (pIdx player_idx) with
              list_card :=
                (s.list_player (pIdx player_idx)).list_card.eraseIdx card_idx })
          (pIdx (player_idx + 2))
          { s.list_player (pIdx (player_idx + 2)) with
            list_card := (s.list_player (pIdx (player_idx + 2))).list_card
              ++ [(s.list_player (pIdx player_idx)).list_card.get ⟨card_idx, h⟩] }
      exchanges_done := s.exchanges_done
        ++ [(player_idx,
              (s.list_player (pIdx player_idx)).list_card.get ⟨card_idx, h⟩)] }
  else .error "InvalidAction: card index out of range"

/-- Modelled from the spec: the bulk exchange used by the transport's submit
step applies the single-card exchange rule for each selected index
(spec section 6). -/
def exchange_cards (s : GameState) (player_idx : Nat) :
    List Nat → Except String GameState
  | [] => .ok s
  | idx :: rest =>
    match exchange_one s player_idx idx with
    | .ok s1 => exchange_cards s1 player_idx rest
    | .error e => .error e

/-- Modelled from the spec: `new_game()` — all marbles in their kennels, the
full catalog in the draw pile, then the initial deal of 6 cards per player
(spec section 6); the tests expect 86 cards left in the draw pile. -/
def new_game : GameState := deal_cards sample_state 6

/-- States reachable through the engine's mutating surface: a fresh game
followed by any sequence of `apply_action`, `exchange_cards`, `deal_cards`
and `start_new_round` calls (spec sections 3 and 6). -/
inductive Reachable : GameState → Prop where
  | init : Reachable new_game
  | apply {s a s1} : Reachable s → apply_action s a = .ok s1 → Reachable s1
  | exchange {s i idxs s1} : Reachable s →
      exchange_cards s i idxs = .ok s1 → Reachable s1
  | deal {s n} : Reachable s → Reachable (deal_cards s n)
  | round {s} : Reachable s → Reachable (start_new_round s)

/-- A concrete scenario for the capture rule: player 1 owns a single unsafe
marble standing on track position 5, every other marble is in its kennel. -/
def c4_state : GameState :=
  { sample_state with
    list_player := updatePlayer sample_state.list_player 1
      { list_card := [], list_marble := [{ pos := 5, is_save := false }] } }

/-- A concrete mid-rank-7 scenario: the active player 0 holds the seven of
spades, its first marble stands on track position 0, and the full 7-step
budget is open. -/
def c2_state : GameState :=
  { sample_state with
    list_player := updatePlayer sample_state.list_player 0
      { list_card := [{ suit := "♠", rank := "7" }]
        list_marble := [{ pos := 0, is_save := false }] }
    card_active := some { suit := "♠", rank := "7" }
    steps_remaining_for_7 := some 7 }

/-- A concrete state whose draw pile is exhausted: every card of the catalog
sits in the discard pile. -/
def exhausted_state : GameState :=
  { sample_state with
    list_card_draw := []
    list_card_discard := LIST_CARD }

/-- C1: `get_state` and `set_state` re-derive the active player index as
`(idx_player_started + cnt_round) mod cnt_player`, and the derivation is
idempotent: reading the state twice without mutation yields the same
`idx_player_active`. -/
theorem claim_C1_active_index_derivation (s : GameState) :
    (get_state s).idx_player_active
        = (s.idx_player_started + s.cnt_round) % s.cnt_player
      ∧ (set_state s).idx_player_active
        = (s.idx_player_started + s.cnt_round) % s.cnt_player
      ∧ (get_state (get_state s)).idx_player_active
        = (get_state s).idx_player_active :=
  ⟨rfl, rfl, rfl⟩

/-- C5: `check_move_validity` returns true exactly when the destination is a
nonnegative position, within the maximum valid board encoding, and not
occupied by an opposing safe marble; in every other case it returns false. -/
theorem claim_C5_move_validity_characterization (s : GameState)
    (player_idx marble_idx : Nat) (new_pos : Int) :
    check_move_validity s player_idx marble_idx new_pos = true
      ↔ 0 ≤ new_pos ∧ new_pos ≤ MAX_POS
          ∧ opposing_safe_at s player_idx new_pos = false := by
  unfold check_move_validity
  split_ifs with h1 h2 h3
  · simp only [false_iff]
    intro h
    omega
  · simp only [false_iff]
    intro h
    omega
  · simp only [false_iff]
    intro h
    exact absurd h.2.2 (by simp [h3])
  · simp only [true_iff]
    refine ⟨by omega, by omega, by simpa using h3⟩

/-- C9: `calculate_7_steps` returns the exact integer board-position delta —
with wraparound on the 64-slot track when both endpoints are track positions,
and the plain delta for moves touching the finish coordinates, so that
`calculate_7_steps 60 68 = 8` (crossing into the finish) while
`calculate_7_steps 68 70 = 2` (pure finish-lane move) — and it signals a
`ValueError` whenever either position argument is missing. -/
theorem claim_C9_calculate_7_steps :
    calculate_7_steps (some 0) (some 7) = .ok 7
      ∧ calculate_7_steps (some 63) (some 6) = .ok 7
      ∧ calculate_7_steps (some 60) (some 68) = .ok (68 - 60)
      ∧ calculate_7_steps (some 68) (some 70) = .ok 2
      ∧ (∀ pf pt : Int, pf < 64 → pt < 64 →
          calculate_7_steps (some pf) (some pt) = .ok ((pt - pf) % 64))
      ∧ (∀ pf pt : Int, 64 ≤ pf ∨ 64 ≤ pt →
          calculate_7_steps (some pf) (some pt) = .ok (pt - pf))
      ∧ (∀ o : Option Int,
          calculate_7_steps none o
              = .error "ValueError: pos_from and pos_to must not be None"
            ∧ calculate_7_steps o none
              = .error "ValueError: pos_from and pos_to must not be None") := by
  refine ⟨?_, ?_, ?_, ?_, ?_, ?_, ?_⟩
  · norm_num [calculate_7_steps, calc_7_steps_core]
  · norm_num [calculate_7_steps, calc_7_steps_core]
  · norm_num [calculate_7_steps, calc_7_steps_core]
  · norm_num [calculate_7_steps, calc_7_steps_core]
  · intro pf pt h1 h2
    simp [calculate_7_steps, calc_7_steps_core, h1, h2]
  · intro pf pt h
    have : ¬(pf < 64 && pt < 64) = true := by
      simp only [Bool.and_eq_true, decide_eq_true_eq]
      omega
    simp [calculate_7_steps, calc_7_steps_core, this]
  · intro o
    constructor
    · rfl
    · cases o <;> rfl

/-- Witness for C9: the track-wraparound conjunct applied at the concrete
endpoints 0 and 7. -/
theorem claim_C9_witness :
    ((0 : Int) < 64 ∧ (7 : Int) < 64)
      ∧ calculate_7_steps (some 0) (some 7) = .ok ((7 - 0) % 64) :=
  ⟨by norm_num, claim_C9_calculate_7_steps.2.2.2.2.1 0 7 (by norm_num) (by norm_num)⟩

/-- C10: the maximum valid board-position encoding is concretely 95 (64 track
slots plus 4 players times 8 kennel/finish slots): `check_move_validity`
rejects `new_pos = 96` and anything larger for every player and marble index,
while an in-range track position with no blocking safe marble is accepted. -/
theorem claim_C10_max_position_is_95 :
    (∀ (s : GameState) (player_idx marble_idx : Nat) (new_pos : Int),
        96 ≤ new_pos →
          check_move_validity s player_idx marble_idx new_pos = false)
      ∧ MAX_POS = 95
      ∧ check_move_validity sample_state 0 0 5 = true := by
  refine ⟨?_, by norm_num [MAX_POS], by decide⟩
  intro s player_idx marble_idx new_pos h
  have hmax : MAX_POS < new_pos := by
    simp only [MAX_POS]
    omega
  unfold check_move_validity
  rw [if_neg (by omega), if_pos hmax]

/-- Witness for C10: the out-of-bounds conjunct applied at position 96. -/
theorem claim_C10_witness :
    (96 : Int) ≤ 96 ∧ check_move_validity sample_state 0 0 96 = false :=
  ⟨le_refl _, claim_C10_max_position_is_95.1 sample_state 0 0 96 (le_refl _)⟩

theorem fin4_val_zero : (0 : Fin 4).val = 0 := rfl

theorem fin4_val_one : (1 : Fin 4).val = 1 := rfl

theorem fin4_val_two : (2 : Fin 4).val = 2 := rfl

theorem fin4_val_three : (3 : Fin 4).val = 3 := rfl

theorem updatePlayer_same (f : Fin 4 → Player) (j : Fin 4) (p : Player) :
    updatePlayer f j p j = p := by
  simp [updatePlayer]

theorem updatePlayer_other (f : Fin 4 → Player) (j : Fin 4) (p : Player)
    (k : Fin 4) (h : k ≠ j) : updatePlayer f j p k = f k := by
  simp [updatePlayer, h]

theorem pIdx_add_two_ne (i : Nat) : pIdx (i + 2) ≠ pIdx i := by
  intro h
  have hv := congrArg Fin.val h
  simp only [pIdx] at hv
  omega

theorem handCountF_update (f : Fin 4 → Player) (j : Fin 4) (p : Player) :
    handCountF (updatePlayer f j p) + (f j).list_card.length
      = handCountF f + p.list_card.length := by
  fin_cases j <;>
    simp [handCountF, updatePlayer, Fin.ext_iff, fin4_val_zero, fin4_val_one,
      fin4_val_two, fin4_val_three] <;>
    omega

theorem handCountF_update_marbles (f : Fin 4 → Player) (j : Fin 4)
    (ms : List Marble) :
    handCountF (updatePlayer f j { f j with list_marble := ms })
      = handCountF f := by
  have h := handCountF_update f j { f j with list_marble := ms }
  have h2 : ({ f j with list_marble := ms } : Player).list_card
      = (f j).list_card := rfl
  rw [h2] at h
  omega

theorem removeFirst_length {c : Card} :
    ∀ {l : List Card}, c ∈ l → (removeFirst c l).length + 1 = l.length := by
  intro l h
  induction l with
  | nil => cases h
  | cons x xs ih =>
    by_cases hx : x = c
    · simp [removeFirst, hx]
    · rcases List.mem_cons.mp h with h1 | h2
      · exact absurd h1.symm hx
      · simp only [removeFirst, if_neg hx, List.length_cons]
        rw [← ih h2]

theorem send_home_hands (s : GameState) (pos : Int) (i : Nat) (j : Fin 4) :
    ((send_home_if_passed s pos i).list_player j).list_card
      = (s.list_player j).list_card := by
  simp only [send_home_if_passed]
  split <;> rfl

theorem send_home_draw (s : GameState) (pos : Int) (i : Nat) :
    (send_home_if_passed s pos i).list_card_draw = s.list_card_draw := rfl

theorem send_home_discard (s : GameState) (pos : Int) (i : Nat) :
    (send_home_if_passed s pos i).list_card_discard = s.list_card_discard := rfl

theorem send_home_active (s : GameState) (pos : Int) (i : Nat) :
    (send_home_if_passed s pos i).idx_player_active = s.idx_player_active := rfl

theorem send_home_steps (s : GameState) (pos : Int) (i : Nat) :
    (send_home_if_passed s pos i).steps_remaining_for_7
      = s.steps_remaining_for_7 := rfl

theorem capture_hands (l : List Int) (i : Nat) :
    ∀ (s : GameState) (j : Fin 4),
      ((l.foldl (fun st p => send_home_if_passed st p i) s).list_player j).list_card
        = (s.list_player j).list_card := by
  induction l with
  | nil => intro s j; rfl
  | cons x xs ih =>
    intro s j
    rw [List.foldl_cons, ih, send_home_hands]

theorem capture_draw (l : List Int) (i : Nat) :
    ∀ s : GameState,
      (l.foldl (fun st p => send_home_if_passed st p i) s).list_card_draw
        = s.list_card_draw := by
  induction l with
  | nil => intro s; rfl
  | cons x xs ih => intro s; rw [List.foldl_cons, ih, send_home_draw]

theorem capture_discard (l : List Int) (i : Nat) :
    ∀ s : GameState,
      (l.foldl (fun st p => send_home_if_passed st p i) s).list_card_discard
        = s.list_card_discard := by
  induction l with
  | nil => intro s; rfl
  | cons x xs ih => intro s; rw [List.foldl_cons, ih, send_home_discard]

theorem capture_active (l : List Int) (i : Nat) :
    ∀ s : GameState,
      (l.foldl (fun st p => send_home_if_passed st p i) s).idx_player_active
        = s.idx_player_active := by
  induction l with
  | nil => intro s; rfl
  | cons x xs ih => intro s; rw [List.foldl_cons, ih, send_home_active]

theorem capture_steps (l : List Int) (i : Nat) :
    ∀ s : GameState,
      (l.foldl (fun st p => send_home_if_passed st p i) s).steps_remaining_for_7
        = s.steps_remaining_for_7 := by
  induction l with
  | nil => intro s; rfl
  | cons x xs ih => intro s; rw [List.foldl_cons, ih, send_home_steps]

theorem captureAlongPath_hands (s : GameState) (pf pt : Int) (i : Nat)
    (j : Fin 4) :
    ((captureAlongPath s pf pt i).list_player j).list_card
      = (s.list_player j).list_card :=
  capture_hands (pathPositions pf pt) i s j

theorem captureAlongPath_draw (s : GameState) (pf pt : Int) (i : Nat) :
    (captureAlongPath s pf pt i).list_card_draw = s.list_card_draw :=
  capture_draw (pathPositions pf pt) i s

theorem captureAlongPath_discard (s : GameState) (pf pt : Int) (i : Nat) :
    (captureAlongPath s pf pt i).list_card_discard = s.list_card_discard :=
  capture_discard (pathPositions pf pt) i s

theorem captureAlongPath_active (s : GameState) (pf pt : Int) (i : Nat) :
    (captureAlongPath s pf pt i).idx_player_active = s.idx_player_active :=
  capture_active (pathPositions pf pt) i s

theorem check_win_player (s : GameState) (j : Fin 4) :
    (check_win s).list_player j = s.list_player j := by
  simp only [check_win]
  split <;> rfl

theorem check_win_draw (s : GameState) :
    (check_win s).list_card_draw = s.list_card_draw := by
  simp only [check_win]
  split <;> rfl

theorem check_win_discard (s : GameState) :
    (check_win s).list_card_discard = s.list_card_discard := by
  simp only [check_win]
  split <;> rfl

theorem check_win_active (s : GameState) :
    (check_win s).idx_player_active = s.idx_player_active := by
  simp only [check_win]
  split <;> rfl

theorem totalCards_capture (s : GameState) (pf pt : Int) (i : Nat) :
    totalCards (captureAlongPath s pf pt i) = totalCards s := by
  simp [totalCards, handCountF, captureAlongPath_hands, captureAlongPath_draw,
    captureAlongPath_discard]

theorem totalCards_check_win (s : GameState) :
    totalCards (check_win s) = totalCards s := by
  simp [totalCards, handCountF, check_win_player, check_win_draw,
    check_win_discard]

theorem totalCards_clearHands (s : GameState) :
    totalCards (clearHandsToDiscard s) = totalCards s := by
  simp [totalCards, clearHandsToDiscard, handCountF, List.length_append]
  omega

theorem totalCards_reshuffle (s : GameState) (n : Nat) :
    totalCards (reshuffleIfNeeded s n) = totalCards s := by
  simp only [reshuffleIfNeeded]
  split
  · simp only [totalCards, handCountF, List.length_append, List.length_nil]
    omega
  · rfl

theorem reshuffle_hands (s : GameState) (n : Nat) (j : Fin 4) :
    ((reshuffleIfNeeded s n).list_player j) = s.list_player j := by
  simp only [reshuffleIfNeeded]
  split <;> rfl

theorem clearHands_handCount (s : GameState) :
    handCountF (clearHandsToDiscard s).list_player = 0 := by
  simp [clearHandsToDiscard, handCountF]

theorem totalCards_dealToPlayers (s : GameState) (n : Nat)
    (h : handCountF s.list_player = 0) :
    totalCards (dealToPlayers s n) = totalCards s := by
  simp only [totalCards, dealToPlayers, handCountF, List.length_drop,
    List.length_take] at h ⊢
  omega

theorem totalCards_deal (s : GameState) (n : Nat) :
    totalCards (deal_cards s n) = totalCards s := by
  unfold deal_cards
  have h0 : handCountF (reshuffleIfNeeded (clearHandsToDiscard s) n).list_player
      = 0 := by
    have h := clearHands_handCount s
    simp only [handCountF, reshuffle_hands] at h ⊢
    exact h
  rw [totalCards_dealToPlayers _ _ h0, totalCards_reshuffle, totalCards_clearHands]

theorem totalCards_round (s : GameState) :
    totalCards (start_new_round s) = totalCards s := by
  unfold start_new_round
  rw [totalCards_deal]
  rfl

theorem deal_cnt_round (s : GameState) (n : Nat) :
    (deal_cards s n).cnt_round = s.cnt_round := by
  simp only [deal_cards, dealToPlayers, reshuffleIfNeeded, clearHandsToDiscard]
  split <;> rfl

theorem deal_started (s : GameState) (n : Nat) :
    (deal_cards s n).idx_player_started = s.idx_player_started := by
  simp only [deal_cards, dealToPlayers, reshuffleIfNeeded, clearHandsToDiscard]
  split <;> rfl

theorem deal_active (s : GameState) (n : Nat) :
    (deal_cards s n).idx_player_active = s.idx_player_active := by
  simp only [deal_cards, dealToPlayers, reshuffleIfNeeded, clearHandsToDiscard]
  split <;> rfl

theorem deal_bool_exchanged (s : GameState) (n : Nat) :
    (deal_cards s n).bool_card_exchanged = s.bool_card_exchanged := by
  simp only [deal_cards, dealToPlayers, reshuffleIfNeeded, clearHandsToDiscard]
  split <;> rfl

theorem deal_card_active (s : GameState) (n : Nat) :
    (deal_cards s n).card_active = s.card_active := by
  simp only [deal_cards, dealToPlayers, reshuffleIfNeeded, clearHandsToDiscard]
  split <;> rfl

theorem deal_steps (s : GameState) (n : Nat) :
    (deal_cards s n).steps_remaining_for_7 = s.steps_remaining_for_7 := by
  simp only [deal_cards, dealToPlayers, reshuffleIfNeeded, clearHandsToDiscard]
  split <;> rfl

theorem deal_phase (s : GameState) (n : Nat) :
    (deal_cards s n).phase = s.phase := by
  simp only [deal_cards, dealToPlayers, reshuffleIfNeeded, clearHandsToDiscard]
  split <;> rfl

theorem round_steps (s : GameState) :
    (start_new_round s).steps_remaining_for_7 = none := by
  unfold start_new_round
  rw [deal_steps]

theorem clear_draw (s : GameState) :
    (clearHandsToDiscard s).list_card_draw = s.list_card_draw := rfl

theorem clear_count (s : GameState) :
    (clearHandsToDiscard s).list_card_draw.length
        + (clearHandsToDiscard s).list_card_discard.length
      = totalCards s := by
  simp only [clearHandsToDiscard, totalCards, handCountF, List.length_append]
  omega

theorem deal_hand_len (s : GameState) (n : Nat) (h4 : 4 * n ≤ totalCards s)
    (j : Fin 4) : ((deal_cards s n).list_player j).list_card.length = n := by
  have htot := clear_count s
  simp only [deal_cards, dealToPlayers, reshuffleIfNeeded]
  fin_cases j <;> split <;>
    simp only [List.length_take, List.length_drop, List.length_append,
      fin4_val_zero, fin4_val_one, fin4_val_two, fin4_val_three] <;>
    omega

theorem totalCards_discardCardStep (s : GameState) {c : Card}
    (hc : c ∈ (s.list_player (pIdx s.idx_player_active)).list_card) :
    totalCards (discardCardStep s c) = totalCards s := by
  have h1 := handCountF_update s.list_player (pIdx s.idx_player_active)
    { s.list_player (pIdx s.idx_player_active) with
      list_card := removeFirst c (s.list_player (pIdx s.idx_player_active)).list_card }
  have h2 := removeFirst_length hc
  simp only [totalCards, discardCardStep, List.length_append, List.length_cons,
    List.length_nil] at h1 ⊢
  omega

theorem totalCards_moveMarbleStep (s : GameState) (i : Nat) (pf pt : Int) :
    totalCards (moveMarbleStep s i pf pt) = totalCards s := by
  unfold moveMarbleStep
  rw [totalCards_check_win]
  have h := handCountF_update_marbles (captureAlongPath s pf pt i).list_player
    (pIdx i)
    (moveMarble (START_POSITION i) pf pt
      (((captureAlongPath s pf pt i).list_player (pIdx i)).list_marble))
  simp only [totalCards, h, captureAlongPath_draw, captureAlongPath_discard]
  simp [handCountF, captureAlongPath_hands]

theorem moveMarbleStep_hands (s : GameState) (i : Nat) (pf pt : Int)
    (j : Fin 4) (hj : j ≠ pIdx i) :
    ((moveMarbleStep s i pf pt).list_player j).list_card
      = (s.list_player j).list_card := by
  unfold moveMarbleStep
  rw [check_win_player]
  simp [updatePlayer, hj, captureAlongPath_hands]

theorem moveMarbleStep_hands_own (s : GameState) (i : Nat) (pf pt : Int) :
    ((moveMarbleStep s i pf pt).list_player (pIdx i)).list_card
      = (s.list_player (pIdx i)).list_card := by
  unfold moveMarbleStep
  rw [check_win_player]
  simp [updatePlayer, captureAlongPath_hands]

theorem moveMarbleStep_active (s : GameState) (i : Nat) (pf pt : Int) :
    (moveMarbleStep s i pf pt).idx_player_active = s.idx_player_active := by
  unfold moveMarbleStep
  rw [check_win_active]
  exact captureAlongPath_active s pf pt i

theorem moveMarbleStep_steps (s : GameState) (i : Nat) (pf pt : Int) :
    (moveMarbleStep s i pf pt).steps_remaining_for_7
      = s.steps_remaining_for_7 := by
  unfold moveMarbleStep
  have h1 : ∀ t : GameState, (check_win t).steps_remaining_for_7
      = t.steps_remaining_for_7 := by
    intro t
    simp only [check_win]
    split <;> rfl
  rw [h1]
  exact capture_steps (pathPositions pf pt) i s

theorem finishCardTurn_total {s : GameState} {c : Card} {s1 : GameState}
    (h : finishCardTurn s c = .ok s1) : totalCards s1 = totalCards s := by
  unfold finishCardTurn at h
  split at h
  case isTrue hc =>
    split at h
    · injection h with h
      subst h
      rw [totalCards_round, totalCards_discardCardStep s hc]
    · injection h with h
      subst h
      exact totalCards_discardCardStep s hc
  case isFalse hc => exact Except.noConfusion h

theorem finishCardTurn_steps {s : GameState} {c : Card} {s1 : GameState}
    (h : finishCardTurn s c = .ok s1) : s1.steps_remaining_for_7 = none := by
  unfold finishCardTurn at h
  split at h
  case isTrue hc =>
    split at h
    · injection h with h
      subst h
      exact round_steps _
    · injection h with h
      subst h
      rfl
  case isFalse hc => exact Except.noConfusion h

theorem handle_seven_err (s : GameState) (a : Action) (p : Nat) (pf pt : Int)
    (r : Nat) (hpf : a.pos_from = some pf) (hpt : a.pos_to = some pt)
    (hr : s.steps_remaining_for_7 = some r)
    (hlt : r < (calc_7_steps_core pf pt).toNat) :
    handle_seven_action s a p
      = .error "Invalid number of steps for this 7-move action." := by
  simp only [handle_seven_action, hpf, hpt, hr, Option.getD_some]
  rw [if_pos]
  simp only [Bool.or_eq_true, decide_eq_true_eq]
  right
  exact hlt

theorem handle_seven_ok_spec {s : GameState} {a : Action} {p : Nat}
    {s1 : GameState} {r : Nat} (hr : s.steps_remaining_for_7 = some r)
    (h : handle_seven_action s a p = .ok s1) :
    0 < consumedSteps a ∧ consumedSteps a ≤ r
      ∧ (consumedSteps a < r →
          s1.steps_remaining_for_7 = some (r - consumedSteps a)
            ∧ s1.idx_player_active = s.idx_player_active)
      ∧ (consumedSteps a = r → s1.steps_remaining_for_7 = none) := by
  unfold handle_seven_action at h
  split at h
  case h_2 => exact Except.noConfusion h
  case h_1 pf pt hpf hpt =>
    rw [hr, Option.getD_some] at h
    split at h
    case isTrue => exact Except.noConfusion h
    case isFalse hcond =>
      simp only [Bool.or_eq_true, decide_eq_true_eq, not_or, not_le, not_lt]
        at hcond
      obtain ⟨hdpos, hdle⟩ := hcond
      have hcs : consumedSteps a = (calc_7_steps_core pf pt).toNat := by
        simp [consumedSteps, calculate_7_steps, hpf, hpt]
      split at h
      case isTrue hz =>
        refine ⟨by omega, by omega, ?_, ?_⟩
        · intro hlt
          omega
        · intro _
          exact finishCardTurn_steps h
      case isFalse hz =>
        injection h with h
        subst h
        refine ⟨by omega, by omega, ?_, ?_⟩
        · intro _
          exact ⟨by rw [hcs], by
            have := moveMarbleStep_active s p pf pt
            simpa using this⟩
        · intro heq
          omega

theorem seven_turn_sum {p : Nat} :
    ∀ {acts : List Action} {s s1 : GameState}, SevenTurn p s acts s1 →
      ∀ r : Nat, s.steps_remaining_for_7 = some r →
        (acts.map consumedSteps).sum = r := by
  intro acts s s1 h
  induction h with
  | @last s a s1 h1 hnone =>
    intro r hr
    obtain ⟨hpos, hle, hmid, _⟩ := handle_seven_ok_spec hr h1
    rcases Nat.lt_or_ge (consumedSteps a) r with hlt | hge
    · have := (hmid hlt).1
      rw [hnone] at this
      exact Option.noConfusion this
    · have heq : consumedSteps a = r := Nat.le_antisymm hle hge
      simp [heq]
  | @cons s a s1 acts s2 h1 hne hturn ih =>
    intro r hr
    obtain ⟨hpos, hle, hmid, hfin⟩ := handle_seven_ok_spec hr h1
    rcases Nat.lt_or_ge (consumedSteps a) r with hlt | hge
    · obtain ⟨hsteps, _⟩ := hmid hlt
      have ihsum := ih (r - consumedSteps a) hsteps
      simp only [List.map_cons, List.sum_cons, ihsum]
      omega
    · have heq : consumedSteps a = r := Nat.le_antisymm hle hge
      exact absurd (hfin heq) hne

theorem handle_seven_total {s : GameState} {a : Action} {p : Nat}
    {s1 : GameState} (h : handle_seven_action s a p = .ok s1) :
    totalCards s1 = totalCards s := by
  unfold handle_seven_action at h
  split at h
  case h_2 => exact Except.noConfusion h
  case h_1 pf pt hpf hpt =>
    split at h
    case isTrue => exact Except.noConfusion h
    case isFalse =>
      split at h
      case isTrue =>
        rw [finishCardTurn_total h, totalCards_moveMarbleStep]
      case isFalse =>
        injection h with h
        subst h
        exact totalCards_moveMarbleStep s p pf pt

theorem apply_none_total (s : GameState) :
    totalCards (apply_none_step s) = totalCards s := by
  unfold apply_none_step
  have h1 := handCountF_update s.list_player (pIdx s.idx_player_active)
    { s.list_player (pIdx s.idx_player_active) with list_card := [] }
  simp only [totalCards, List.length_append, List.length_nil] at h1 ⊢
  omega

theorem handle_card_swap_total {s : GameState} {a : Action} {s1 : GameState}
    (h : handle_card_swap s a = .ok s1) : totalCards s1 = totalCards s := by
  unfold handle_card_swap at h
  split at h
  case isTrue hc =>
    injection h with h
    subst h
    have hne := pIdx_add_two_ne s.idx_player_active
    have h1 := handCountF_update s.list_player (pIdx s.idx_player_active)
      { s.list_player (pIdx s.idx_player_active) with
        list_card :=
          removeFirst a.card (s.list_player (pIdx s.idx_player_active)).list_card }
    have h3 : updatePlayer s.list_player (pIdx s.idx_player_active)
        { s.list_player (pIdx s.idx_player_active) with
          list_card :=
            removeFirst a.card
              (s.list_player (pIdx s.idx_player_active)).list_card }
        (pIdx (s.idx_player_active + 2))
        = s.list_player (pIdx (s.idx_player_active + 2)) :=
      updatePlayer_other _ _ _ _ hne
    have h2 := handCountF_update
      (updatePlayer s.list_player (pIdx s.idx_player_active)
        { s.list_player (pIdx s.idx_player_active) with
          list_card :=
            removeFirst a.card
              (s.list_player (pIdx s.idx_player_active)).list_card })
      (pIdx (s.idx_player_active + 2))
      { s.list_player (pIdx (s.idx_player_active + 2)) with
        list_card := (s.list_player (pIdx (s.idx_player_active + 2))).list_card
          ++ [a.card] }
    have h4 := removeFirst_length hc
    rw [h3] at h2
    simp only [totalCards, List.length_append, List.length_cons,
      List.length_nil] at h1 h2 ⊢
    omega
  case isFalse => exact Except.noConfusion h

theorem exchange_one_total {s : GameState} {pi ci : Nat} {s1 : GameState}
    (h : exchange_one s pi ci = .ok s1) : totalCards s1 = totalCards s := by
  unfold exchange_one at h
  split at h
  case isTrue hlt =>
    injection h with h
    subst h
    have hne := pIdx_add_two_ne pi
    have h1 := handCountF_update s.list_player (pIdx pi)
      { s.list_player (pIdx pi) with
        list_card := (s.list_player (pIdx pi)).list_card.eraseIdx ci }
    have h3 : updatePlayer s.list_player (pIdx pi)
        { s.list_player (pIdx pi) with
          list_card := (s.list_player (pIdx pi)).list_card.eraseIdx ci }
        (pIdx (pi + 2)) = s.list_player (pIdx (pi + 2)) :=
      updatePlayer_other _ _ _ _ hne
    have h2 := handCountF_update
      (updatePlayer s.list_player (pIdx pi)
        { s.list_player (pIdx pi) with
          list_card := (s.list_player (pIdx pi)).list_card.eraseIdx ci })
      (pIdx (pi + 2))
      { s.list_player (pIdx (pi + 2)) with
        list_card := (s.list_player (pIdx (pi + 2))).list_card
          ++ [(s.list_player (pIdx pi)).list_card.get ⟨ci, hlt⟩] }
    have h4 : ((s.list_player (pIdx pi)).list_card.eraseIdx ci).length + 1
        = (s.list_player (pIdx pi)).list_card.length :=
      List.length_eraseIdx_add_one hlt
    rw [h3] at h2
    simp only [totalCards, List.length_append, List.length_cons,
      List.length_nil] at h1 h2 ⊢
    omega
  case isFalse => exact Except.noConfusion h

theorem exchange_cards_total {pi : Nat} :
    ∀ {idxs : List Nat} {s s1 : GameState},
      exchange_cards s pi idxs = .ok s1 → totalCards s1 = totalCards s := by
  intro idxs
  induction idxs with
  | nil =>
    intro s s1 h
    unfold exchange_cards at h
    injection h with h
    subst h
    rfl
  | cons i rest ih =>
    intro s s1 h
    unfold exchange_cards at h
    split at h
    case h_1 s2 he => exact (ih h).trans (exchange_one_total he)
    case h_2 e he => exact Except.noConfusion h

theorem apply_swap_total {s : GameState} {a : Action} {s1 : GameState}
    (h : apply_swap_action s a = .ok s1) : totalCards s1 = totalCards s := by
  unfold apply_swap_action at h
  split at h
  case h_1 pf pt hpf hpt => exact (finishCardTurn_total h).trans rfl
  case h_2 => exact Except.noConfusion h

theorem apply_move_total {s : GameState} {a : Action} {s1 : GameState}
    (h : apply_move_action s a = .ok s1) : totalCards s1 = totalCards s := by
  unfold apply_move_action at h
  split at h
  case h_1 pf pt hpf hpt =>
    split at h
    case isTrue =>
      rw [finishCardTurn_total h, totalCards_moveMarbleStep]
    case isFalse => exact Except.noConfusion h
  case h_2 => exact Except.noConfusion h

theorem apply_action_total {s : GameState} {a : Option Action} {s1 : GameState}
    (h : apply_action s a = .ok s1) : totalCards s1 = totalCards s := by
  cases a with
  | none =>
    simp only [apply_action] at h
    split at h
    · injection h with h
      subst h
      rw [totalCards_round, apply_none_total]
    · injection h with h
      subst h
      exact apply_none_total s
  | some act =>
    simp only [apply_action] at h
    split_ifs at h with h1 h2 h3
    · exact handle_card_swap_total h
    · exact apply_swap_total h
    · exact handle_seven_total h
    · exact apply_move_total h

/-- C6: card conservation — in every state reachable via `new_game`,
`apply_action`, `exchange_cards`, `deal_cards` and `start_new_round`, the
draw pile, the discard pile and the four hands together hold exactly the
catalog's cards (a card mid-resolution stays in its owner's hand and is thus
counted); a fresh game has an empty discard pile, 86 cards in the draw pile
and 6 cards in each of the four hands. -/
theorem claim_C6_card_conservation (s : GameState) (h : Reachable s) :
    totalCards s = LIST_CARD.length
      ∧ new_game.list_card_discard.length = 0
      ∧ new_game.list_card_draw.length = 86
      ∧ (∀ j : Fin 4, (new_game.list_player j).list_card.length = 6) := by
  refine ⟨?_, by decide, by decide, by decide⟩
  induction h with
  | init =>
    have h1 : new_game = deal_cards sample_state 6 := rfl
    rw [h1, totalCards_deal]
    decide
  | apply hr hstep ih => exact (apply_action_total hstep).trans ih
  | exchange hr hstep ih => exact (exchange_cards_total hstep).trans ih
  | deal hr ih => rw [totalCards_deal]; exact ih
  | round hr ih => rw [totalCards_round]; exact ih

/-- Witness for C6: the conservation invariant instantiated at the freshly
created game. -/
theorem claim_C6_witness :
    totalCards new_game = LIST_CARD.length
      ∧ new_game.list_card_discard.length = 0
      ∧ new_game.list_card_draw.length = 86
      ∧ (∀ j : Fin 4, (new_game.list_player j).list_card.length = 6) :=
  claim_C6_card_conservation new_game Reachable.init

/-- C2: during a rank-7 resolution, a partial move whose consumed step count
(via `calculate_7_steps`) exceeds the remaining budget is rejected with the
`ValueError` message and produces no successor state; a valid partial move
decrements `steps_remaining_for_7` by exactly the consumed steps and leaves
the turn with the same active player until the budget reaches 0; and the
steps consumed across the partial moves of one complete rank-7 turn sum to
exactly 7. -/
theorem claim_C2_seven_budget :
    (∀ (s : GameState) (a : Action) (p : Nat) (pf pt : Int) (r : Nat),
        a.pos_from = some pf → a.pos_to = some pt →
        s.steps_remaining_for_7 = some r →
        r < (calc_7_steps_core pf pt).toNat →
        handle_seven_action s a p
          = .error "Invalid number of steps for this 7-move action.")
      ∧ (∀ (s : GameState) (a : Action) (p : Nat) (r : Nat) (s1 : GameState),
          s.steps_remaining_for_7 = some r →
          handle_seven_action s a p = .ok s1 →
          0 < consumedSteps a ∧ consumedSteps a ≤ r
            ∧ (consumedSteps a < r →
                s1.steps_remaining_for_7 = some (r - consumedSteps a)
                  ∧ s1.idx_player_active = s.idx_player_active)
            ∧ (consumedSteps a = r → s1.steps_remaining_for_7 = none))
      ∧ (∀ (p : Nat) (s : GameState) (acts : List Action) (s1 : GameState),
          s.steps_remaining_for_7 = some 7 →
          SevenTurn p s acts s1 →
          (acts.map consumedSteps).sum = 7) :=
  ⟨fun s a p pf pt r hpf hpt hr hlt =>
      handle_seven_err s a p pf pt r hpf hpt hr hlt,
    fun _ _ _ _ _ hr h => handle_seven_ok_spec hr h,
    fun _ _ _ _ hr ht => seven_turn_sum ht 7 hr⟩

/-- Witness for C2: a 20-step displacement against a budget of 7 raises the
`ValueError`. -/
theorem claim_C2_witness :
    c2_state.steps_remaining_for_7 = some 7
      ∧ (7 : Nat) < (calc_7_steps_core 0 20).toNat
      ∧ handle_seven_action c2_state
          { card := { suit := "♠", rank := "7" }, pos_from := some 0,
            pos_to := some 20, card_swap := none } 0
          = .error "Invalid number of steps for this 7-move action." :=
  ⟨rfl, by decide,
    claim_C2_seven_budget.1 c2_state
      { card := { suit := "♠", rank := "7" }, pos_from := some 0,
        pos_to := some 20, card_swap := none } 0 0 20 7 rfl rfl rfl (by decide)⟩

/-- C3: `start_new_round()` increments the round count, deals exactly
`7 - ((cnt_round - 1) mod 5 + 1)` cards to every player (the 6,5,4,3,2 cycle
over rounds 1..10), rotates the starting player by one seat, sets the active
player to the new starting player, resets the exchange flag, active card and
7-step budget, and sets the phase to RUNNING. -/
theorem claim_C3_start_new_round (s : GameState) (h24 : 24 ≤ totalCards s) :
    (start_new_round s).cnt_round = s.cnt_round + 1
      ∧ (∀ j : Fin 4, ((start_new_round s).list_player j).list_card.length
          = 7 - (((start_new_round s).cnt_round - 1) % 5 + 1))
      ∧ (start_new_round s).idx_player_started = (s.idx_player_started + 1) % 4
      ∧ (start_new_round s).idx_player_active
          = (start_new_round s).idx_player_started
      ∧ (start_new_round s).bool_card_exchanged = false
      ∧ (start_new_round s).card_active = none
      ∧ (start_new_round s).steps_remaining_for_7 = none
      ∧ (start_new_round s).phase = GamePhase.RUNNING
      ∧ (List.range 10).map (fun k => 7 - (k % 5 + 1))
          = [6, 5, 4, 3, 2, 6, 5, 4, 3, 2] := by
  have hcr : (start_new_round s).cnt_round = s.cnt_round + 1 := by
    unfold start_new_round
    rw [deal_cnt_round]
  refine ⟨hcr, ?_, ?_, ?_, ?_, ?_, round_steps s, ?_, by decide⟩
  · intro j
    rw [hcr]
    unfold start_new_round
    refine deal_hand_len _ _ ?_ j
    have ht : totalCards
        { s with
          cnt_round := s.cnt_round + 1
          idx_player_started := (s.idx_player_started + 1) % 4
          idx_player_active := (s.idx_player_started + 1) % 4
          bool_card_exchanged := false
          card_active := none
          steps_remaining_for_7 := none
          phase := GamePhase.RUNNING } = totalCards s := rfl
    rw [ht]
    omega
  · unfold start_new_round
    rw [deal_started]
  · unfold start_new_round
    rw [deal_active, deal_started]
  · unfold start_new_round
    rw [deal_bool_exchanged]
  · unfold start_new_round
    rw [deal_card_active]
  · unfold start_new_round
    rw [deal_phase]

/-- Witness for C3: a new round started from the all-in-kennel state with the
full catalog in the draw pile. -/
theorem claim_C3_witness :
    24 ≤ totalCards sample_state
      ∧ (start_new_round sample_state).cnt_round = sample_state.cnt_round + 1
      ∧ (∀ j : Fin 4,
          ((start_new_round sample_state).list_player j).list_card.length
            = 7 - (((start_new_round sample_state).cnt_round - 1) % 5 + 1)) :=
  ⟨by decide, (claim_C3_start_new_round sample_state (by decide)).1,
    (claim_C3_start_new_round sample_state (by decide)).2.1⟩

/-- C4: `send_home_if_passed` resets every non-safe opposing marble standing
on the given position to its owner's first kennel slot with the safety flag
cleared, while a destination occupied by an opposing safe marble makes
`check_move_validity` return false (the move is rejected, not a capture). -/
theorem claim_C4_capture_rule :
    (∀ (s : GameState) (pos : Int) (active : Nat) (j : Fin 4),
        j.val ≠ active →
        ∀ (k : Nat) (hk : k < (s.list_player j).list_marble.length),
          ((s.list_player j).list_marble.get ⟨k, hk⟩).pos = pos →
          ((s.list_player j).list_marble.get ⟨k, hk⟩).is_save = false →
          ∃ hk2 : k < ((send_home_if_passed s pos active).list_player j).list_marble.length,
            ((send_home_if_passed s pos active).list_player j).list_marble.get
                ⟨k, hk2⟩
              = { pos := (KENNEL_POSITIONS j.val).headD 0, is_save := false })
      ∧ (∀ (s : GameState) (player_idx marble_idx : Nat) (new_pos : Int)
          (j : Fin 4) (m : Marble),
          j.val ≠ player_idx → m ∈ (s.list_player j).list_marble →
          m.pos = new_pos → m.is_save = true →
          check_move_validity s player_idx marble_idx new_pos = false) := by
  constructor
  · intro s pos active j hj k hk hpos hsave
    have hres : ((send_home_if_passed s pos active).list_player j).list_marble
        = (s.list_player j).list_marble.map (fun m =>
            if m.pos == pos && !m.is_save then
              { pos := (KENNEL_POSITIONS j.val).headD 0, is_save := false }
            else m) := by
      simp [send_home_if_passed, hj]
    have hk2 : k < ((send_home_if_passed s pos active).list_player j).list_marble.length := by
      rw [hres, List.length_map]
      exact hk
    refine ⟨hk2, ?_⟩
    have hget : ((send_home_if_passed s pos active).list_player j).list_marble.get
        ⟨k, hk2⟩
        = (fun m =>
            if m.pos == pos && !m.is_save then
              ({ pos := (KENNEL_POSITIONS j.val).headD 0,
                 is_save := false } : Marble)
            else m) ((s.list_player j).list_marble.get ⟨k, hk⟩) := by
      simp only [hres, List.get_eq_getElem, List.getElem_map]
    rw [hget]
    simp only [List.get_eq_getElem] at hpos hsave
    simp [hpos, hsave]
  · intro s player_idx marble_idx new_pos j m hj hm hpos hsafe
    have hopp : opposing_safe_at s player_idx new_pos = true := by
      simp only [opposing_safe_at, List.any_eq_true]
      refine ⟨j, List.mem_finRange j, ?_⟩
      simp only [Bool.and_eq_true, bne_iff_ne, ne_eq, List.any_eq_true]
      exact ⟨hj, m, hm, by simp [hpos, hsafe]⟩
    unfold check_move_validity
    by_cases h1 : new_pos < 0
    · rw [if_pos h1]
    · rw [if_neg h1]
      by_cases h2 : MAX_POS < new_pos
      · rw [if_pos h2]
      · rw [if_neg h2, if_pos hopp]

/-- Witness for C4: player 1's unsafe marble on track position 5 is sent to
its owner's first kennel slot by a capture sweep of player 0. -/
theorem claim_C4_witness :
    ∃ hk2 : 0 < ((send_home_if_passed c4_state 5 0).list_player 1).list_marble.length,
      ((send_home_if_passed c4_state 5 0).list_player 1).list_marble.get ⟨0, hk2⟩
        = { pos := (KENNEL_POSITIONS 1).headD 0, is_save := false } :=
  claim_C4_capture_rule.1 c4_state 5 0 1 (by decide) 0 (by decide) (by decide)
    (by decide)

/-- C7: `deal_cards(n)` clears every hand and deals `n` cards to each of the
4 players; when the draw pile holds fewer than `4 * n` cards the discard pile
is first reshuffled into the draw pile (leaving the discard pile empty), so
that dealing from an exhausted draw pile leaves `catalog_size - 4 * n` cards
in the draw pile; with enough cards in the draw pile it simply shrinks by
`4 * n`. -/
theorem claim_C7_deal_cards (s : GameState) (n : Nat)
    (hcons : totalCards s = LIST_CARD.length) (hn : 4 * n ≤ LIST_CARD.length) :
    (∀ j : Fin 4, ((deal_cards s n).list_player j).list_card.length = n)
      ∧ (s.list_card_draw.length < 4 * n →
          (deal_cards s n).list_card_discard = []
            ∧ (deal_cards s n).list_card_draw.length
              = LIST_CARD.length - 4 * n)
      ∧ (4 * n ≤ s.list_card_draw.length →
          (deal_cards s n).list_card_draw.length
            = s.list_card_draw.length - 4 * n) := by
  have hc : s.list_card_draw.length
      + (clearHandsToDiscard s).list_card_discard.length = totalCards s := by
    rw [← clear_draw s]
    exact clear_count s
  refine ⟨fun j => deal_hand_len s n (by omega) j, ?_, ?_⟩
  · intro hlt
    constructor
    · simp only [deal_cards, dealToPlayers, reshuffleIfNeeded, clear_draw]
      rw [if_pos hlt]
    · simp only [deal_cards, dealToPlayers, List.length_drop,
        reshuffleIfNeeded, clear_draw]
      rw [if_pos hlt]
      simp only [List.length_append]
      omega
  · intro hge
    simp only [deal_cards, dealToPlayers, List.length_drop,
      reshuffleIfNeeded, clear_draw]
    rw [if_neg (by omega)]
    rw [clear_draw]

/-- Witness for C7: dealing 6 cards per player from an exhausted draw pile
reshuffles the full catalog and leaves 86 cards in the draw pile. -/
theorem claim_C7_witness :
    totalCards exhausted_state = LIST_CARD.length
      ∧ exhausted_state.list_card_draw.length < 4 * 6
      ∧ (deal_cards exhausted_state 6).list_card_discard = []
      ∧ (deal_cards exhausted_state 6).list_card_draw.length
          = LIST_CARD.length - 4 * 6 :=
  ⟨by decide, by decide,
    ((claim_C7_deal_cards exhausted_state 6 (by decide) (by decide)).2.1
      (by decide)).1,
    ((claim_C7_deal_cards exhausted_state 6 (by decide) (by decide)).2.1
      (by decide)).2⟩

/-- C8: `apply_action(None)` moves every card of the active player's hand to
the discard pile (the discard pile grows by exactly the hand size), clears
the hand, advances the active player to the next seat mod 4, and triggers
`start_new_round()` exactly when every player's hand is empty afterwards. -/
theorem claim_C8_apply_action_none (s : GameState) :
    (apply_none_step s).list_card_discard.length
        = s.list_card_discard.length
          + (s.list_player (pIdx s.idx_player_active)).list_card.length
      ∧ ((apply_none_step s).list_player (pIdx s.idx_player_active)).list_card
          = []
      ∧ (apply_none_step s).idx_player_active = (s.idx_player_active + 1) % 4
      ∧ (allHandsEmpty (apply_none_step s) = true →
          apply_action s none = .ok (start_new_round (apply_none_step s)))
      ∧ (allHandsEmpty (apply_none_step s) = false →
          apply_action s none = .ok (apply_none_step s)) := by
  refine ⟨?_, ?_, rfl, ?_, ?_⟩
  · simp [apply_none_step, List.length_append]
  · simp [apply_none_step, updatePlayer]
  · intro hall
    simp only [apply_action]
    rw [if_pos hall]
  · intro hall
    simp only [apply_action]
    rw [if_neg (by simp [hall])]

/-- Witness for C8: forfeiting from the all-in-kennel state (every hand
empty) triggers a new round. -/
theorem claim_C8_witness :
    allHandsEmpty (apply_none_step sample_state) = true
      ∧ apply_action sample_state none
          = .ok (start_new_round (apply_none_step sample_state)) :=
  ⟨by decide, (claim_C8_apply_action_none sample_state).2.2.2.1 (by decide)⟩

end Dog
